import Mathlib

/-!
Shallow embedding of the OCR HTTP service pipeline
(`code/agents/ocr_http_stub/docker/ocr_service.py`).

Modelling conventions:
* External effects (OpenCV/PIL preprocessing stages, the Tesseract engine,
  PDF rasterization, `file.save`) are abstract inputs of type `Except String _`:
  `.error e` models the Python call raising an exception with message `e`,
  `.ok v` models it returning `v`.
* File-system side effects are tracked explicitly: every embedded operation
  returns a `FileTrace` listing the temporary files it created and deleted.
* Python `float` arithmetic is modelled over `ℚ`; `round(x, 2)` is modelled by
  `round2` (round-half-up to two decimals — the claims under study do not
  depend on tie-breaking).
* Python dicts are modelled by structures holding the fields the claims
  reference; the metadata echo fields (`languages_used`,
  `processing_settings`, timestamps) carry no claim content and are omitted.
-/

/-- CONFIG max file size: 50 MiB. -/
def max_file_size : Nat := 50 * 1024 * 1024

/-- CONFIG supported format extensions. -/
def supported_formats : List String := [".png", ".jpg", ".jpeg", ".tiff", ".bmp", ".pdf"]

/-- CONFIG temp directory. -/
def temp_dir : String := "/app/temp"

/-- Python round to two decimal places, modelled as round-half-up. -/
def round2 (q : ℚ) : ℚ := (⌊100 * q + 1 / 2⌋ : ℚ) / 100

/-- Number of maximal whitespace-free runs in a character list. The boolean
records whether the previous character was whitespace (the start of the
string counts as whitespace). This models Python `len(s.split())`. -/
def countWordsAux : Bool → List Char → Nat
  | _, [] => 0
  | prevWs, c :: cs =>
    if c.isWhitespace then countWordsAux true cs
    else (if prevWs then 1 else 0) + countWordsAux false cs

/-- Python `len(text.split())`: the number of whitespace-delimited tokens. -/
def wordCount (s : String) : Nat := countWordsAux true s.data

/-- Python `len(text)`. -/
def charCount (s : String) : Nat := s.length

/-- Split a character list at every occurrence of `sep` (Python
`str.split(sep)` for a one-character separator; kept structural so that the
kernel can evaluate it on concrete inputs). -/
def splitOnChar (sep : Char) : List Char → List (List Char)
  | [] => [[]]
  | c :: cs =>
    match splitOnChar sep cs with
    | [] => [[]]
    | g :: gs => if c = sep then [] :: g :: gs else (c :: g) :: gs

/-- Last element of a list, or the default for the empty list. -/
def lastD {α : Type} (d : α) : List α → α
  | [] => d
  | [a] => a
  | _ :: b :: rest => lastD d (b :: rest)

/-- Lower-case every character (Python `str.lower()` for ASCII). -/
def lowerStr (s : String) : String := (s.data.map Char.toLower).asString

/-- Python `str.strip()`: drop leading and trailing whitespace. -/
def pyStrip (s : String) : String :=
  (((s.data.dropWhile Char.isWhitespace).reverse.dropWhile
    Char.isWhitespace).reverse).asString

/-- `Path(p).name`: the final path component. -/
def baseName (p : String) : String :=
  (lastD p.data (splitOnChar '/' p.data)).asString

/-- `Path(filename).suffix.lower()`: the (lower-cased) final extension,
empty for names with no dot, hidden files and trailing dots. -/
def file_ext (filename : String) : String :=
  let name := baseName filename
  match splitOnChar '.' name.data with
  | [] => ""
  | [_] => ""
  | first :: rest =>
    let lastPart := lastD [] rest
    if first.isEmpty && rest.length == 1 then ""
    else if lastPart.isEmpty then ""
    else lowerStr ("." ++ lastPart.asString)

/-- Files created and deleted by one embedded operation. -/
structure FileTrace where
  created : List String
  deleted : List String
deriving Repr, DecidableEq

/-- The temp files an operation created but never deleted. -/
def FileTrace.leaked (t : FileTrace) : List String :=
  t.created.filter (fun f => !(t.deleted.contains f))

/-- Output of one successful Tesseract invocation: the per-token confidence
column of `image_to_data` and the raw `image_to_string` text. -/
structure EngineOutput where
  conf : List Int
  text : String
deriving Repr, DecidableEq

/-- The fields of the per-image OCR result dict that the claims reference.
`error = none` models the success dict (which has no error key). -/
structure ExtractionResult where
  text : String
  confidence : ℚ
  word_count : Nat
  char_count : Nat
  error : Option String
deriving Repr, DecidableEq

/-- `OCRProcessor.preprocess_image`: on success the enhanced copy is written
to `temp_dir/processed_<basename>` and its path returned; any exception is
caught and the original path returned unchanged. `stages` abstracts the
OpenCV/PIL pipeline outcome (decode, denoise, sharpen, threshold, write). -/
def preprocess_image (image_path : String) (stages : Except String Unit) :
    String × FileTrace :=
  match stages with
  | .ok _ =>
    let processed_path := temp_dir ++ "/processed_" ++ baseName image_path
    (processed_path, ⟨[processed_path], []⟩)
  | .error _ => (image_path, ⟨[], []⟩)

/-- `OCRProcessor.extract_text_from_image`. `pre` abstracts the preprocessing
stages, `engine` the two pytesseract calls (both run on the same input; a
raised exception lands in the except-branch). On success: text is stripped,
confidences strictly greater than zero are averaged (0 if none), the result
is rounded to two decimals, and the processed copy is deleted when distinct
from the original. On engine failure: the error dict is returned — note the
processed copy is not deleted on that path. -/
def extract_text_from_image (image_path : String) (languages : List String)
    (psm oem : Int) (preprocess : Bool)
    (pre : Except String Unit) (engine : Except String EngineOutput) :
    ExtractionResult × FileTrace :=
  let pp : String × FileTrace :=
    if preprocess then preprocess_image image_path pre else (image_path, ⟨[], []⟩)
  let processed_path := pp.1
  match engine with
  | .error e =>
    ({ text := "", confidence := 0, word_count := 0, char_count := 0,
       error := some e }, pp.2)
  | .ok data =>
    let confidences := data.conf.filter (fun c => 0 < c)
    let avg_confidence : ℚ :=
      if confidences.isEmpty then 0
      else (confidences.map (fun (c : ℤ) => (c : ℚ))).sum / (confidences.length : ℚ)
    let text := pyStrip data.text
    ({ text := text, confidence := round2 avg_confidence,
       word_count := wordCount text, char_count := charCount text,
       error := none },
     { created := pp.2.created,
       deleted := if processed_path ≠ image_path then [processed_path] else [] })

/-- The fields of the PDF-level result dict that the claims reference. The
error dict has no pages-processed key; it is modelled as 0 there. -/
structure DocumentResult where
  text : String
  confidence : ℚ
  word_count : Nat
  char_count : Nat
  page_count : Nat
  pages_processed : Nat
  error : Option String
deriving Repr, DecidableEq

/-- Abstract behaviour of one rasterized PDF page: the preprocessing outcome
and the engine outcome for that page image. -/
structure PageInput where
  pre : Except String Unit
  engine : Except String EngineOutput
deriving Repr

/-- The temp path of 0-based page `i`: `temp_dir/page_{i+1}.png`. The name
depends only on the page index — it carries no request identity. -/
def page_path (i : Nat) : String :=
  temp_dir ++ "/page_" ++ toString (i + 1) ++ ".png"

/-- Accumulator of the page loop of `extract_text_from_pdf`. -/
structure PdfLoopState where
  all_text : List String
  total_confidence : ℚ
  page_count : Nat
  trace : FileTrace
deriving Repr

/-- The page loop of `extract_text_from_pdf`: save page `i` to its temp
path, extract with preprocessing enabled, append the page-marked text and
accumulate confidence when the page text is non-empty, then delete the page
file. -/
def pdf_loop (languages : List String) (psm oem : Int) :
    Nat → List PageInput → PdfLoopState → PdfLoopState
  | _, [], st => st
  | i, p :: rest, st =>
    let page := extract_text_from_image (page_path i) languages psm oem true
      p.pre p.engine
    let st1 :=
      if page.1.text ≠ "" then
        { st with
          all_text := st.all_text ++
            ["=== Page " ++ toString (i + 1) ++ " ===\n" ++ page.1.text],
          total_confidence := st.total_confidence + page.1.confidence,
          page_count := st.page_count + 1 }
      else st
    let st2 :=
      { st1 with trace :=
        { created := st1.trace.created ++ page_path i :: page.2.created,
          deleted := st1.trace.deleted ++ page.2.deleted ++ [page_path i] } }
    pdf_loop languages psm oem (i + 1) rest st2

/-- Python `sep.join(l)`. -/
def joinSep (sep : String) : List String → String
  | [] => ""
  | [s] => s
  | s :: rest => s ++ sep ++ joinSep sep rest

/-- `OCRProcessor.extract_text_from_pdf`. `convert` abstracts
`convert_from_path` (rasterization): `.ok pages` gives the behaviour of each
rasterized page in order. Contributing pages (non-empty extracted text) are
page-marked and joined with blank lines; confidence is the mean over
contributing pages (0 if none), rounded to two decimals. -/
def extract_text_from_pdf (pdf_path : String) (languages : List String)
    (psm oem : Int) (convert : Except String (List PageInput)) :
    DocumentResult × FileTrace :=
  match convert with
  | .error e =>
    ({ text := "", confidence := 0, word_count := 0, char_count := 0,
       page_count := 0, pages_processed := 0, error := some e }, ⟨[], []⟩)
  | .ok images =>
    let st := pdf_loop languages psm oem 0 images ⟨[], 0, 0, ⟨[], []⟩⟩
    let combined_text := joinSep "\n\n" st.all_text
    let avg_confidence : ℚ :=
      if st.page_count > 0 then st.total_confidence / (st.page_count : ℚ)
      else 0
    ({ text := combined_text, confidence := round2 avg_confidence,
       word_count := wordCount combined_text,
       char_count := charCount combined_text,
       page_count := images.length, pages_processed := st.page_count,
       error := none },
     st.trace)

/-- One single-file OCR request as seen by the `/ocr` handler, together with
the abstract behaviour of the external calls it may make. `timestamp` is
`datetime.now().strftime("%Y%m%d_%H%M%S")` — second granularity. -/
structure OcrRequest where
  file_present : Bool
  filename : String
  size : Nat
  languages : List String
  psm : Int
  oem : Int
  preprocess : Bool
  timestamp : String
  pre : Except String Unit
  engine : Except String EngineOutput
  convert : Except String (List PageInput)

/-- Successful `/ocr` body: an image or a document result. -/
inductive OcrOutcome
  | image (r : ExtractionResult)
  | pdf (r : DocumentResult)
deriving Repr, DecidableEq

/-- HTTP outcome of the `/ocr` handler: 200 with a body, or 400 with the
error message of the validation branch taken. -/
inductive OcrResponse
  | ok (body : OcrOutcome)
  | badRequest (msg : String)
deriving Repr, DecidableEq

/-- The oversized-upload message (Python f-string with the configured max). -/
def size_error_msg : String :=
  "File too large. Max size: " ++ toString max_file_size ++ " bytes"

/-- The `/ocr` handler `process_ocr`: validation checks in source order
(file present, filename non-empty, size, extension), then the upload is
saved to `temp_dir/upload_<timestamp><ext>`, dispatched by extension, and
the upload deleted in a finally block. -/
def process_ocr (req : OcrRequest) : OcrResponse × FileTrace :=
  if !req.file_present then
    (.badRequest "No file provided. Use 'file' or 'image' field.", ⟨[], []⟩)
  else if req.filename = "" then
    (.badRequest "No file selected", ⟨[], []⟩)
  else if req.size > max_file_size then
    (.badRequest size_error_msg, ⟨[], []⟩)
  else
    let ext := file_ext req.filename
    if ext ∉ supported_formats then
      (.badRequest ("Unsupported format: " ++ ext ++ ". Supported: " ++
        String.intercalate ", " supported_formats), ⟨[], []⟩)
    else
      let temp_path := temp_dir ++ "/upload_" ++ req.timestamp ++ ext
      let step : OcrOutcome × FileTrace :=
        if ext = ".pdf" then
          let r := extract_text_from_pdf temp_path req.languages req.psm
            req.oem req.convert
          (.pdf r.1, r.2)
        else
          let r := extract_text_from_image temp_path req.languages req.psm
            req.oem req.preprocess req.pre req.engine
          (.image r.1, r.2)
      (.ok step.1,
       { created := temp_path :: step.2.created,
         deleted := step.2.deleted ++ [temp_path] })

/-- One item of a `/ocr/batch` request: the submitted filename plus the
abstract behaviour of `file.save` and of the extraction calls were the item
to be processed. -/
structure BatchFile where
  filename : String
  save : Except String Unit
  pre : Except String Unit
  engine : Except String EngineOutput
  convert : Except String (List PageInput)

/-- One entry of the batch result list: a filename+error pair, a tagged
image result, or a tagged document result. -/
inductive BatchEntry
  | failure (filename error : String)
  | image (filename : String) (r : ExtractionResult)
  | pdf (filename : String) (r : DocumentResult)
deriving Repr, DecidableEq

/-- Python `"error" in r` for a batch entry. -/
def BatchEntry.hasError : BatchEntry → Bool
  | .failure _ _ => true
  | .image _ r => r.error.isSome
  | .pdf _ r => r.error.isSome

/-- The filename recorded in a batch entry. -/
def BatchEntry.fname : BatchEntry → String
  | .failure f _ => f
  | .image f _ => f
  | .pdf f _ => f

/-- The per-item body of the batch loop: empty filenames are skipped
(`continue` appends nothing), unsupported extensions are recorded as error
entries without touching the file system, supported items are saved to
`temp_dir/batch_<ts>_<filename>`, extracted (images with preprocessing), and
the temp file deleted; a raised exception becomes an error entry. -/
def process_batch_item (languages : List String) (psm oem : Int)
    (ts : String) (f : BatchFile) : Option (BatchEntry × FileTrace) :=
  if f.filename = "" then none
  else
    let ext := file_ext f.filename
    if ext ∉ supported_formats then
      some (.failure f.filename ("Unsupported format: " ++ ext), ⟨[], []⟩)
    else
      let temp_path := temp_dir ++ "/batch_" ++ ts ++ "_" ++ f.filename
      match f.save with
      | .error e => some (.failure f.filename e, ⟨[], []⟩)
      | .ok _ =>
        if ext = ".pdf" then
          let r := extract_text_from_pdf temp_path languages psm oem f.convert
          some (.pdf f.filename r.1,
            ⟨temp_path :: r.2.created, r.2.deleted ++ [temp_path]⟩)
        else
          let r := extract_text_from_image temp_path languages psm oem true
            f.pre f.engine
          some (.image f.filename r.1,
            ⟨temp_path :: r.2.created, r.2.deleted ++ [temp_path]⟩)

/-- The fields of the `/ocr/batch` response the claims reference. -/
structure BatchResponse where
  batch_results : List BatchEntry
  total_files : Nat
  processed_files : Nat
  failed_files : Nat
deriving Repr, DecidableEq

/-- The `/ocr/batch` handler `process_batch_ocr` (for a non-empty files
field): run the per-item body over the list in order, then count entries
without and with an error key. -/
def process_batch_ocr (languages : List String) (psm oem : Int) (ts : String)
    (files : List BatchFile) : BatchResponse × FileTrace :=
  let processed := files.filterMap (process_batch_item languages psm oem ts)
  let results := processed.map Prod.fst
  ({ batch_results := results,
     total_files := files.length,
     processed_files := (results.filter (fun r => !r.hasError)).length,
     failed_files := (results.filter (fun r => r.hasError)).length },
   { created := (processed.map (fun p => p.2.created)).foldr (· ++ ·) [],
     deleted := (processed.map (fun p => p.2.deleted)).foldr (· ++ ·) [] })

/-- Whether the character preceding the continuation is whitespace after
scanning `l`, starting from state `b`. Companion of `countWordsAux`. -/
def endsWs (b : Bool) : List Char → Bool
  | [] => b
  | c :: cs => endsWs c.isWhitespace cs

/-- Arithmetic mean of a list of rationals, 0 for the empty list. -/
def ratMean (l : List ℚ) : ℚ := if l = [] then 0 else l.sum / (l.length : ℚ)

/-- Boolean test that an abstract external call succeeded. -/
def exceptOk {ε α : Type} : Except ε α → Bool
  | .ok _ => true
  | .error _ => false

/-- The extraction result of 0-based page `i` of a PDF, as produced inside
the page loop (preprocessing always enabled). -/
def pageResult (languages : List String) (psm oem : Int) (i : Nat)
    (p : PageInput) : ExtractionResult :=
  (extract_text_from_image (page_path i) languages psm oem true p.pre p.engine).1

/-- The contributing pages of a PDF — those whose extracted text is
non-empty — with their 0-based indices, in rasterization order. -/
def contrib (languages : List String) (psm oem : Int) :
    Nat → List PageInput → List (Nat × ExtractionResult)
  | _, [] => []
  | i, p :: rest =>
    let r := pageResult languages psm oem i p
    if r.text ≠ "" then
      (i, r) :: contrib languages psm oem (i + 1) rest
    else contrib languages psm oem (i + 1) rest

/-- The page-marked text block of 0-based page `i`. -/
def markedText (i : Nat) (r : ExtractionResult) : String :=
  "=== Page " ++ toString (i + 1) ++ " ===\n" ++ r.text

/-- A batch item that would be processed successfully: saving succeeds and
the extraction route chosen for its extension succeeds. -/
@[reducible] def itemOk (f : BatchFile) : Prop :=
  exceptOk f.save = true ∧
  (if file_ext f.filename = ".pdf" then exceptOk f.convert = true
   else exceptOk f.engine = true)

/-- A batch item the loop skips outright: empty filename. -/
def isSkipped (f : BatchFile) : Bool := f.filename == ""

/-- A batch item recorded as an unsupported-format error entry. -/
def isUnsupported (f : BatchFile) : Bool :=
  f.filename != "" && !(supported_formats.contains (file_ext f.filename))

/-- A malformed-or-unsupported batch item in the sense of the claims:
empty filename or unsupported extension. -/
def isMalformed (f : BatchFile) : Bool :=
  f.filename == "" || !(supported_formats.contains (file_ext f.filename))

theorem digitChar_ge16 (n : Nat) (h : 16 ≤ n) : Nat.digitChar n = '*' := by
  unfold Nat.digitChar
  repeat rw [if_neg (by omega)]

theorem digitChar_not_ws (n : Nat) : (Nat.digitChar n).isWhitespace = false := by
  by_cases h : n < 16
  · interval_cases n <;> decide
  · rw [digitChar_ge16 n (by omega)]; decide

theorem toDigitsCore_mem (b : Nat) :
    ∀ (fuel n : Nat) (acc : List Char) (c : Char),
      c ∈ Nat.toDigitsCore b fuel n acc → c ∈ acc ∨ ∃ m, c = Nat.digitChar m := by
  intro fuel
  induction fuel with
  | zero =>
    intro n acc c h
    simp only [Nat.toDigitsCore] at h
    exact Or.inl h
  | succ f ih =>
    intro n acc c h
    simp only [Nat.toDigitsCore] at h
    by_cases hz : n / b = 0
    · rw [if_pos hz] at h
      rcases List.mem_cons.mp h with h1 | h1
      · exact Or.inr ⟨n % b, h1⟩
      · exact Or.inl h1
    · rw [if_neg hz] at h
      rcases ih (n / b) ((n % b).digitChar :: acc) c h with h1 | h1
      · rcases List.mem_cons.mp h1 with h2 | h2
        · exact Or.inr ⟨n % b, h2⟩
        · exact Or.inl h2
      · exact Or.inr h1

theorem toDigitsCore_len (b : Nat) :
    ∀ (fuel n : Nat) (acc : List Char),
      acc.length ≤ (Nat.toDigitsCore b fuel n acc).length := by
  intro fuel
  induction fuel with
  | zero => intro n acc; simp [Nat.toDigitsCore]
  | succ f ih =>
    intro n acc
    simp only [Nat.toDigitsCore]
    by_cases hz : n / b = 0
    · rw [if_pos hz]; simp
    · rw [if_neg hz]
      calc acc.length ≤ ((n % b).digitChar :: acc).length := by simp
        _ ≤ _ := ih (n / b) ((n % b).digitChar :: acc)

theorem toDigits_ne_nil (n : Nat) : Nat.toDigits 10 n ≠ [] := by
  unfold Nat.toDigits
  simp only [Nat.toDigitsCore]
  by_cases hz : n / 10 = 0
  · rw [if_pos hz]; simp
  · rw [if_neg hz]
    intro h
    have hlen := toDigitsCore_len 10 n (n / 10) [(n % 10).digitChar]
    rw [h] at hlen
    simp at hlen

theorem toDigits_not_ws (n : Nat) (c : Char) (h : c ∈ Nat.toDigits 10 n) :
    c.isWhitespace = false := by
  rcases toDigitsCore_mem 10 (n + 1) n [] c h with h1 | ⟨m, rfl⟩
  · simp at h1
  · exact digitChar_not_ws m

theorem repr_data (n : Nat) : (toString n).data = Nat.toDigits 10 n := rfl

theorem countWordsAux_append (ys : List Char) :
    ∀ (xs : List Char) (b : Bool),
      countWordsAux b (xs ++ ys) =
        countWordsAux b xs + countWordsAux (endsWs b xs) ys := by
  intro xs
  induction xs with
  | nil => intro b; simp [countWordsAux, endsWs]
  | cons c cs ih =>
    intro b
    simp only [List.cons_append, countWordsAux, endsWs]
    by_cases hw : c.isWhitespace
    · simp [hw, ih]
    · simp [hw, ih, Nat.add_assoc]

theorem countWordsAux_no_ws :
    ∀ (l : List Char), l ≠ [] → (∀ c ∈ l, c.isWhitespace = false) →
      (∀ b, endsWs b l = false) ∧
        countWordsAux true l = 1 ∧ countWordsAux false l = 0 := by
  intro l
  induction l with
  | nil => intro h; exact absurd rfl h
  | cons c cs ih =>
    intro _ hws
    have hc : c.isWhitespace = false := hws c (List.mem_cons_self c cs)
    by_cases hcs : cs = []
    · subst hcs
      refine ⟨fun b => ?_, ?_, ?_⟩
      · simp [endsWs, hc]
      · simp [countWordsAux, hc]
      · simp [countWordsAux, hc]
    · have ih2 := ih hcs (fun x hx => hws x (List.mem_cons_of_mem c hx))
      refine ⟨fun b => ?_, ?_, ?_⟩
      · simp only [endsWs]; exact ih2.1 c.isWhitespace
      · simp only [countWordsAux, hc, if_false, if_true]
        rw [ih2.2.2]
        simp
      · simp only [countWordsAux, hc, if_false]
        rw [ih2.2.2]
        simp

theorem wordCount_markedText (i : Nat) (r : ExtractionResult) :
    wordCount (markedText i r) = 4 + wordCount r.text := by
  have hdig := countWordsAux_no_ws (Nat.toDigits 10 (i + 1)) (toDigits_ne_nil (i + 1))
    (fun c hc => toDigits_not_ws (i + 1) c hc)
  unfold markedText wordCount
  rw [String.data_append, String.data_append, String.data_append, repr_data]
  rw [List.append_assoc, List.append_assoc]
  rw [countWordsAux_append]
  rw [countWordsAux_append]
  rw [countWordsAux_append]
  have h1 : countWordsAux true ("=== Page ").data = 2 := by decide
  have h2 : endsWs true ("=== Page ").data = true := by decide
  rw [h1, h2, hdig.2.1, hdig.1]
  have h3 : countWordsAux false (" ===\n").data = 1 := by decide
  have h4 : endsWs false (" ===\n").data = true := by decide
  rw [h3, h4]
  omega

theorem wordCount_joinSep :
    ∀ l : List String, wordCount (joinSep "\n\n" l) = (l.map wordCount).sum := by
  intro l
  induction l with
  | nil => rfl
  | cons s rest ih =>
    cases rest with
    | nil => simp [joinSep, wordCount]
    | cons t ts =>
      have hj : joinSep "\n\n" (s :: t :: ts) =
          s ++ "\n\n" ++ joinSep "\n\n" (t :: ts) := rfl
      rw [hj]
      unfold wordCount
      rw [String.data_append, String.data_append, List.append_assoc]
      rw [countWordsAux_append]
      have hsep : ∀ (b : Bool) (x : List Char),
          countWordsAux b ("\n\n".data ++ x) = countWordsAux true x := by
        intro b x; cases b <;> rfl
      rw [hsep]
      show wordCount s + wordCount (joinSep "\n\n" (t :: ts)) = _
      rw [ih]
      rfl

theorem round2_mono {a b : ℚ} (h : a ≤ b) : round2 a ≤ round2 b := by
  unfold round2
  have hf : ⌊100 * a + 1 / 2⌋ ≤ ⌊100 * b + 1 / 2⌋ :=
    Int.floor_le_floor (by linarith)
  have hc : ((⌊100 * a + 1 / 2⌋ : ℤ) : ℚ) ≤ ((⌊100 * b + 1 / 2⌋ : ℤ) : ℚ) := by
    exact_mod_cast hf
  exact div_le_div_of_nonneg_right hc (by norm_num) |>.trans_eq rfl

theorem round2_zero : round2 0 = 0 := by
  unfold round2
  have h : ⌊(100 : ℚ) * 0 + 1 / 2⌋ = 0 := by
    apply Int.floor_eq_iff.mpr
    norm_num
  rw [h]
  norm_num

theorem round2_hundred : round2 100 = 100 := by
  unfold round2
  have h : ⌊(100 : ℚ) * 100 + 1 / 2⌋ = 10000 := by
    apply Int.floor_eq_iff.mpr
    norm_num
  rw [h]
  norm_num

theorem ratMean_nonneg (l : List ℚ) (h : ∀ x ∈ l, 0 ≤ x) : 0 ≤ ratMean l := by
  unfold ratMean
  by_cases hE : l = []
  · simp [hE]
  · rw [if_neg hE]
    apply div_nonneg (List.sum_nonneg h)
    positivity

theorem ratMean_le_100 (l : List ℚ) (h : ∀ x ∈ l, x ≤ 100) : ratMean l ≤ 100 := by
  unfold ratMean
  by_cases hE : l = []
  · simp [hE]
  · rw [if_neg hE]
    have hlen : (0 : ℚ) < (l.length : ℚ) := by
      have : l.length ≠ 0 := fun hc => hE (List.length_eq_zero.mp hc)
      exact_mod_cast Nat.pos_of_ne_zero this
    rw [div_le_iff₀ hlen]
    have := List.sum_le_card_nsmul l 100 h
    rw [nsmul_eq_mul] at this
    linarith

/-- C1: for every image extraction, the aggregate confidence equals the
arithmetic mean of the per-token confidences strictly greater than zero,
rounded to two decimal places, and equals 0 when no token has confidence
greater than zero; given the engine's per-token bound (each reported value
at most 100), every confidence output — including the engine-failure
branch — lies in [0, 100]. -/
theorem C1_confidence_is_rounded_mean (image_path : String)
    (languages : List String) (psm oem : Int) (preprocess : Bool)
    (pre : Except String Unit) (data : EngineOutput)
    (hle : ∀ c ∈ data.conf, c ≤ 100) :
    (extract_text_from_image image_path languages psm oem preprocess pre
        (.ok data)).1.confidence
      = round2 (ratMean ((data.conf.filter (fun c => 0 < c)).map
          (fun (c : ℤ) => (c : ℚ)))) ∧
    (data.conf.filter (fun c => 0 < c) = [] →
      (extract_text_from_image image_path languages psm oem preprocess pre
        (.ok data)).1.confidence = 0) ∧
    0 ≤ (extract_text_from_image image_path languages psm oem preprocess pre
        (.ok data)).1.confidence ∧
    (extract_text_from_image image_path languages psm oem preprocess pre
        (.ok data)).1.confidence ≤ 100 ∧
    ∀ e : String,
      (extract_text_from_image image_path languages psm oem preprocess pre
        (.error e)).1.confidence = 0 := by
  have hconf : (extract_text_from_image image_path languages psm oem
      preprocess pre (.ok data)).1.confidence
      = round2 (if (data.conf.filter (fun c => 0 < c)).isEmpty then 0
          else ((data.conf.filter (fun c => 0 < c)).map
              (fun (c : ℤ) => (c : ℚ))).sum
            / ((data.conf.filter (fun c => 0 < c)).length : ℚ)) := rfl
  have hmean : (if (data.conf.filter (fun c => 0 < c)).isEmpty then (0 : ℚ)
      else ((data.conf.filter (fun c => 0 < c)).map (fun (c : ℤ) => (c : ℚ))).sum
        / ((data.conf.filter (fun c => 0 < c)).length : ℚ))
      = ratMean ((data.conf.filter (fun c => 0 < c)).map
          (fun (c : ℤ) => (c : ℚ))) := by
    by_cases hE : data.conf.filter (fun c => 0 < c) = []
    · simp [hE, ratMean]
    · have hmE : (data.conf.filter (fun c => 0 < c)).map
          (fun (c : ℤ) => (c : ℚ)) ≠ [] := by
        simpa using hE
      rw [if_neg (by simpa using hE), ratMean, if_neg hmE]
      simp
  have hbounds : ∀ x ∈ (data.conf.filter (fun c => 0 < c)).map
      (fun (c : ℤ) => (c : ℚ)), 0 ≤ x ∧ x ≤ 100 := by
    intro x hx
    rcases List.mem_map.mp hx with ⟨c, hcf, rfl⟩
    rcases List.mem_filter.mp hcf with ⟨hcm, hcp⟩
    have hcpos : (0 : ℤ) < c := by simpa using hcp
    constructor
    · exact_mod_cast hcpos.le
    · exact_mod_cast hle c hcm
  refine ⟨by rw [hconf, hmean], ?_, ?_, ?_, fun e => rfl⟩
  · intro hE
    rw [hconf]
    simp only [hE, List.isEmpty_nil, if_true]
    exact round2_zero
  · rw [hconf, hmean]
    calc (0 : ℚ) = round2 0 := round2_zero.symm
      _ ≤ _ := round2_mono (ratMean_nonneg _ (fun x hx => (hbounds x hx).1))
  · rw [hconf, hmean]
    calc round2 (ratMean ((data.conf.filter (fun c => 0 < c)).map
          (fun (c : ℤ) => (c : ℚ))))
        ≤ round2 100 :=
          round2_mono (ratMean_le_100 _ (fun x hx => (hbounds x hx).2))
      _ = 100 := round2_hundred

/-- C1 witness: a concrete extraction with confidences `[-1, 0, 57, 96]`
(mean of the positive ones is 76.5). -/
theorem C1_witness :
    (extract_text_from_image "/app/temp/u.png" ["eng"] 3 3 true (.ok ())
        (.ok ⟨[-1, 0, 57, 96], "Invoice 42"⟩)).1.confidence
      = round2 (ratMean ((([-1, 0, 57, 96] : List Int).filter
          (fun c => 0 < c)).map (fun (c : ℤ) => (c : ℚ)))) ∧
    0 ≤ (extract_text_from_image "/app/temp/u.png" ["eng"] 3 3 true (.ok ())
        (.ok ⟨[-1, 0, 57, 96], "Invoice 42"⟩)).1.confidence ∧
    (extract_text_from_image "/app/temp/u.png" ["eng"] 3 3 true (.ok ())
        (.ok ⟨[-1, 0, 57, 96], "Invoice 42"⟩)).1.confidence ≤ 100 := by
  have h := C1_confidence_is_rounded_mean "/app/temp/u.png" ["eng"] 3 3 true
    (.ok ()) ⟨[-1, 0, 57, 96], "Invoice 42"⟩ (by decide)
  exact ⟨h.1, h.2.2.1, h.2.2.2.1⟩

/-- C5: for image and PDF results alike (including the engine-failure and
PDF-failure branches), if the error field is present then the text is
empty, the confidence is 0, and the word and char counts are 0. -/
theorem C5_error_implies_empty_result (image_path pdf_path : String)
    (languages : List String) (psm oem : Int) (preprocess : Bool)
    (pre : Except String Unit) (engine : Except String EngineOutput)
    (convert : Except String (List PageInput)) :
    ((extract_text_from_image image_path languages psm oem preprocess pre
        engine).1.error.isSome = true →
      (extract_text_from_image image_path languages psm oem preprocess pre
        engine).1.text = "" ∧
      (extract_text_from_image image_path languages psm oem preprocess pre
        engine).1.confidence = 0 ∧
      (extract_text_from_image image_path languages psm oem preprocess pre
        engine).1.word_count = 0 ∧
      (extract_text_from_image image_path languages psm oem preprocess pre
        engine).1.char_count = 0) ∧
    ((extract_text_from_pdf pdf_path languages psm oem
        convert).1.error.isSome = true →
      (extract_text_from_pdf pdf_path languages psm oem convert).1.text = "" ∧
      (extract_text_from_pdf pdf_path languages psm oem
        convert).1.confidence = 0 ∧
      (extract_text_from_pdf pdf_path languages psm oem
        convert).1.word_count = 0 ∧
      (extract_text_from_pdf pdf_path languages psm oem
        convert).1.char_count = 0) := by
  constructor
  · intro h
    cases engine with
    | error e => exact ⟨rfl, rfl, rfl, rfl⟩
    | ok data => simp [extract_text_from_image] at h
  · intro h
    cases convert with
    | error e => exact ⟨rfl, rfl, rfl, rfl⟩
    | ok pages => simp [extract_text_from_pdf] at h

/-- C5 witness: an image extraction whose engine call raised, and a PDF
extraction whose rasterization raised. -/
theorem C5_witness :
    ((extract_text_from_image "/x/in.png" ["eng"] 3 3 true (.ok ())
        (.error "boom")).1.text = "" ∧
      (extract_text_from_image "/x/in.png" ["eng"] 3 3 true (.ok ())
        (.error "boom")).1.confidence = 0 ∧
      (extract_text_from_image "/x/in.png" ["eng"] 3 3 true (.ok ())
        (.error "boom")).1.word_count = 0 ∧
      (extract_text_from_image "/x/in.png" ["eng"] 3 3 true (.ok ())
        (.error "boom")).1.char_count = 0) ∧
    ((extract_text_from_pdf "/x/in.pdf" ["eng"] 3 3
        (.error "bad pdf")).1.text = "" ∧
      (extract_text_from_pdf "/x/in.pdf" ["eng"] 3 3
        (.error "bad pdf")).1.confidence = 0 ∧
      (extract_text_from_pdf "/x/in.pdf" ["eng"] 3 3
        (.error "bad pdf")).1.word_count = 0 ∧
      (extract_text_from_pdf "/x/in.pdf" ["eng"] 3 3
        (.error "bad pdf")).1.char_count = 0) := by
  have h := C5_error_implies_empty_result "/x/in.png" "/x/in.pdf" ["eng"] 3 3
    true (.ok ()) (.error "boom") (.error "bad pdf")
  exact ⟨h.1 (by decide), h.2 (by decide)⟩

/-- C9: any preprocessing failure is caught and the original, unmodified
image path is returned (with no temporary file created); the function is
total, so no exception propagates, and its result is always either the
original path or the processed-copy path. -/
theorem C9_preprocess_failure_returns_original (image_path : String) :
    (∀ e : String,
      preprocess_image image_path (.error e) = (image_path, ⟨[], []⟩)) ∧
    (∀ stages : Except String Unit,
      (preprocess_image image_path stages).1 = image_path ∨
      (preprocess_image image_path stages).1 =
        temp_dir ++ "/processed_" ++ baseName image_path) := by
  constructor
  · intro e; rfl
  · intro stages
    cases stages with
    | ok u => exact Or.inr rfl
    | error e => exact Or.inl rfl

/-- C6 evaluated at the failing input: when preprocessing succeeded and the
engine call raises, the preprocessed copy is created but never deleted (the
except-branch returns before the cleanup line), so it leaks; on the success
path the same file is deleted. -/
theorem C6_engine_exception_leaks_processed_copy :
    (extract_text_from_image "/x/in.png" ["eng"] 3 3 true (.ok ())
        (.error "tesseract crashed")).2.leaked
      = ["/app/temp/processed_in.png"] ∧
    (extract_text_from_image "/x/in.png" ["eng"] 3 3 true (.ok ())
        (.ok ⟨[90], "hello"⟩)).2.leaked = [] := by
  constructor <;> decide

/-- C7 evaluated at the failing input: the page temp name is a function of
the page index alone, so two concurrently served PDF requests (distinct
files, languages, settings) are assigned the same temp file name for their
first page; likewise two single-file uploads in the same timestamp second
are assigned the same upload temp name. -/
theorem C7_temp_name_collision :
    (extract_text_from_pdf "/x/a.pdf" ["eng"] 3 3
        (.ok [⟨.ok (), .ok ⟨[90], "a"⟩⟩])).2.created.head?
      = (extract_text_from_pdf "/x/b.pdf" ["deu"] 6 1
        (.ok [⟨.ok (), .ok ⟨[80], "b"⟩⟩])).2.created.head? ∧
    (extract_text_from_pdf "/x/a.pdf" ["eng"] 3 3
        (.ok [⟨.ok (), .ok ⟨[90], "a"⟩⟩])).2.created.head?
      = some (page_path 0) ∧
    (process_ocr ⟨true, "a.png", 100, ["eng"], 3, 3, true, "20250101_120000",
        .ok (), .ok ⟨[90], "a"⟩, .error "not a pdf"⟩).2.created.head?
      = (process_ocr ⟨true, "b.png", 200, ["deu"], 6, 1, true,
        "20250101_120000", .ok (), .ok ⟨[80], "b"⟩,
        .error "not a pdf"⟩).2.created.head? := by
  refine ⟨?_, ?_, ?_⟩ <;> decide

theorem pdf_loop_spec (languages : List String) (psm oem : Int) :
    ∀ (pages : List PageInput) (i : Nat) (st : PdfLoopState),
      (pdf_loop languages psm oem i pages st).all_text
        = st.all_text ++ (contrib languages psm oem i pages).map
            (fun x => markedText x.1 x.2) ∧
      (pdf_loop languages psm oem i pages st).total_confidence
        = st.total_confidence + ((contrib languages psm oem i pages).map
            (fun x => x.2.confidence)).sum ∧
      (pdf_loop languages psm oem i pages st).page_count
        = st.page_count + (contrib languages psm oem i pages).length := by
  intro pages
  induction pages with
  | nil => intro i st; simp [pdf_loop, contrib]
  | cons p rest ih =>
    intro i st
    simp only [pdf_loop, contrib, pageResult]
    split
    · refine ⟨?_, ?_, ?_⟩
      · rw [(ih (i + 1) _).1]
        simp [markedText, List.append_assoc]
      · rw [(ih (i + 1) _).2.1]
        simp [add_assoc]
      · rw [(ih (i + 1) _).2.2]
        simp [Nat.add_assoc]
        omega
    · refine ⟨?_, ?_, ?_⟩
      · rw [(ih (i + 1) _).1]
      · rw [(ih (i + 1) _).2.1]
      · rw [(ih (i + 1) _).2.2]

theorem contrib_index_ge (languages : List String) (psm oem : Int) :
    ∀ (pages : List PageInput) (i : Nat) (x : Nat × ExtractionResult),
      x ∈ contrib languages psm oem i pages → i ≤ x.1 := by
  intro pages
  induction pages with
  | nil => intro i x h; simp [contrib] at h
  | cons p rest ih =>
    intro i x h
    simp only [contrib] at h
    split at h
    · rcases List.mem_cons.mp h with h1 | h1
      · subst h1; exact le_refl i
      · exact (Nat.le_succ i).trans (ih (i + 1) x h1)
    · exact (Nat.le_succ i).trans (ih (i + 1) x h)

theorem contrib_pairwise (languages : List String) (psm oem : Int) :
    ∀ (pages : List PageInput) (i : Nat),
      List.Pairwise (· < ·)
        ((contrib languages psm oem i pages).map Prod.fst) := by
  intro pages
  induction pages with
  | nil => intro i; simp [contrib]
  | cons p rest ih =>
    intro i
    simp only [contrib]
    split
    · rw [List.map_cons]
      refine List.pairwise_cons.mpr ⟨?_, ih (i + 1)⟩
      intro j hj
      rcases List.mem_map.mp hj with ⟨x, hx, rfl⟩
      exact Nat.lt_of_lt_of_le (Nat.lt_succ_self i)
        (contrib_index_ge languages psm oem rest (i + 1) x hx)
    · exact ih (i + 1)

theorem extract_word_count_eq (image_path : String) (languages : List String)
    (psm oem : Int) (preprocess : Bool) (pre : Except String Unit)
    (engine : Except String EngineOutput) :
    (extract_text_from_image image_path languages psm oem preprocess pre
        engine).1.word_count
      = wordCount (extract_text_from_image image_path languages psm oem
        preprocess pre engine).1.text := by
  cases engine with
  | error e => rfl
  | ok data => rfl

theorem contrib_mem (languages : List String) (psm oem : Int) :
    ∀ (pages : List PageInput) (i : Nat) (x : Nat × ExtractionResult),
      x ∈ contrib languages psm oem i pages →
        x.2.word_count = wordCount x.2.text ∧ x.2.text ≠ "" := by
  intro pages
  induction pages with
  | nil => intro i x h; simp [contrib] at h
  | cons p rest ih =>
    intro i x h
    simp only [contrib] at h
    split at h
    · rcases List.mem_cons.mp h with h1 | h1
      · subst h1
        exact ⟨extract_word_count_eq _ _ _ _ _ _ _, by assumption⟩
      · exact ih (i + 1) x h1
    · exact ih (i + 1) x h

theorem sum_map_const_add {α : Type} (l : List α) (w : α → Nat) (k : Nat) :
    (l.map (fun x => k + w x)).sum = k * l.length + (l.map w).sum := by
  induction l with
  | nil => simp
  | cons a as ih => simp [ih]; ring

/-- C2: for a PDF whose rasterization yields `pages`, the result's
page count equals the number of rasterized pages; the combined text is
exactly the non-empty-text pages in ascending page order, each page-marked,
joined by blank lines; the processed-pages count is the number of
contributing pages; and the confidence is the mean of the contributing
pages' confidences (0 if none), rounded to two decimals. -/
theorem C2_pdf_aggregation (pdf_path : String) (languages : List String)
    (psm oem : Int) (pages : List PageInput) :
    (extract_text_from_pdf pdf_path languages psm oem
        (.ok pages)).1.page_count = pages.length ∧
    (extract_text_from_pdf pdf_path languages psm oem (.ok pages)).1.text
      = joinSep "\n\n" ((contrib languages psm oem 0 pages).map
          (fun x => markedText x.1 x.2)) ∧
    (extract_text_from_pdf pdf_path languages psm oem
        (.ok pages)).1.pages_processed
      = (contrib languages psm oem 0 pages).length ∧
    (extract_text_from_pdf pdf_path languages psm oem
        (.ok pages)).1.confidence
      = round2 (ratMean ((contrib languages psm oem 0 pages).map
          (fun x => x.2.confidence))) ∧
    List.Pairwise (· < ·)
      ((contrib languages psm oem 0 pages).map Prod.fst) := by
  obtain ⟨h1, h2, h3⟩ :=
    pdf_loop_spec languages psm oem pages 0 ⟨[], 0, 0, ⟨[], []⟩⟩
  refine ⟨rfl, ?_, ?_, ?_, contrib_pairwise languages psm oem pages 0⟩
  · show joinSep "\n\n"
        (pdf_loop languages psm oem 0 pages ⟨[], 0, 0, ⟨[], []⟩⟩).all_text = _
    rw [h1]
    simp
  · show (pdf_loop languages psm oem 0 pages ⟨[], 0, 0, ⟨[], []⟩⟩).page_count
        = _
    rw [h3]
    simp
  · show round2 (if (pdf_loop languages psm oem 0 pages
          ⟨[], 0, 0, ⟨[], []⟩⟩).page_count > 0 then
        (pdf_loop languages psm oem 0 pages
          ⟨[], 0, 0, ⟨[], []⟩⟩).total_confidence
          / ((pdf_loop languages psm oem 0 pages
            ⟨[], 0, 0, ⟨[], []⟩⟩).page_count : ℚ) else 0) = _
    rw [h2, h3]
    simp only [zero_add, Nat.zero_add]
    by_cases hE : contrib languages psm oem 0 pages = []
    · simp [hE, ratMean]
    · have hlen : 0 < (contrib languages psm oem 0 pages).length :=
        List.length_pos.mpr hE
      rw [if_pos hlen, ratMean,
        if_neg (by simpa using hE)]
      simp

/-- C10: the PDF result's word count is taken over the combined page-marked
text, so each contributing page adds its own word count plus the 4 marker
tokens; whenever at least one page contributes, the word count strictly
exceeds the sum of the contributing pages' own word counts. -/
theorem C10_word_count_includes_markers (pdf_path : String)
    (languages : List String) (psm oem : Int) (pages : List PageInput) :
    (extract_text_from_pdf pdf_path languages psm oem
        (.ok pages)).1.word_count
      = ((contrib languages psm oem 0 pages).map
          (fun x => 4 + x.2.word_count)).sum ∧
    (contrib languages psm oem 0 pages ≠ [] →
      ((contrib languages psm oem 0 pages).map
          (fun x => x.2.word_count)).sum
        < (extract_text_from_pdf pdf_path languages psm oem
          (.ok pages)).1.word_count) := by
  obtain ⟨h1, h2, h3⟩ :=
    pdf_loop_spec languages psm oem pages 0 ⟨[], 0, 0, ⟨[], []⟩⟩
  have hwc : (extract_text_from_pdf pdf_path languages psm oem
      (.ok pages)).1.word_count
      = ((contrib languages psm oem 0 pages).map
          (fun x => 4 + x.2.word_count)).sum := by
    show wordCount (joinSep "\n\n" (pdf_loop languages psm oem 0 pages
        ⟨[], 0, 0, ⟨[], []⟩⟩).all_text) = _
    rw [h1]
    simp only [List.nil_append]
    rw [wordCount_joinSep, List.map_map]
    refine congrArg List.sum (List.map_congr_left ?_)
    intro x hx
    show wordCount (markedText x.1 x.2) = 4 + x.2.word_count
    rw [wordCount_markedText,
      (contrib_mem languages psm oem pages 0 x hx).1]
  refine ⟨hwc, fun hne => ?_⟩
  rw [hwc, sum_map_const_add]
  have hlen : 0 < (contrib languages psm oem 0 pages).length :=
    List.length_pos.mpr hne
  omega

/-- C10 witness: a one-page PDF whose page yields the text "hello"
(1 word); the combined text has 5 words. -/
theorem C10_witness :
    ((contrib ["eng"] 3 3 0 [⟨.ok (), .ok ⟨[90], "hello"⟩⟩]).map
        (fun x => x.2.word_count)).sum
      < (extract_text_from_pdf "/x/a.pdf" ["eng"] 3 3
        (.ok [⟨.ok (), .ok ⟨[90], "hello"⟩⟩])).1.word_count :=
  (C10_word_count_includes_markers "/x/a.pdf" ["eng"] 3 3
    [⟨.ok (), .ok ⟨[90], "hello"⟩⟩]).2 (by decide)

/-- C8: a single-file request whose upload exceeds 50 MiB is rejected with
a 400 validation error and no temporary file is created; a request of at
most 50 MiB is never rejected by the size check. -/
theorem C8_oversized_rejected (req : OcrRequest) :
    (max_file_size < req.size →
      (∃ msg, (process_ocr req).1 = .badRequest msg) ∧
      (process_ocr req).2.created = []) ∧
    (req.size ≤ max_file_size →
      (process_ocr req).1 ≠ .badRequest size_error_msg) := by
  constructor
  · intro hsize
    by_cases h1 : req.file_present = true
    · by_cases h2 : req.filename = ""
      · exact ⟨⟨"No file selected", by simp [process_ocr, h1, h2]⟩,
          by simp [process_ocr, h1, h2]⟩
      · exact ⟨⟨size_error_msg, by simp [process_ocr, h1, h2, hsize]⟩,
          by simp [process_ocr, h1, h2, hsize]⟩
    · exact ⟨⟨"No file provided. Use 'file' or 'image' field.",
        by simp [process_ocr, h1]⟩, by simp [process_ocr, h1]⟩
  · intro hle heq
    have hno : ¬ req.size > max_file_size := Nat.not_lt.mpr hle
    by_cases h1 : req.file_present = true
    · by_cases h2 : req.filename = ""
      · simp only [process_ocr, h1, h2, Bool.not_true, Bool.false_eq_true,
          if_false, if_true] at heq
        exact absurd heq (by decide)
      · by_cases h3 : file_ext req.filename ∈ supported_formats
        · simp [process_ocr, h1, h2, hno, h3] at heq
        · simp [process_ocr, h1, h2, hno, h3] at heq
          have hU : ("Unsupported format: " ++ file_ext req.filename ++
              ". Supported: " ++ String.intercalate ", "
                supported_formats).data.head? = some 'U' := rfl
          have hF : size_error_msg.data.head? = some 'F' := rfl
          have hhead : some 'U' = some 'F' := by rw [← hU, ← hF, heq]
          exact absurd hhead (by decide)
    · simp [process_ocr, h1] at heq
      exact absurd heq (by decide)

/-- C8 witness: a 50 MiB + 1 byte upload is rejected with 400 before any
temp file exists. -/
theorem C8_witness :
    (∃ msg, (process_ocr ⟨true, "big.png", 52428801, ["eng"], 3, 3, true,
        "20250101_120000", .ok (), .ok ⟨[90], "a"⟩,
        .error "not a pdf"⟩).1 = .badRequest msg) ∧
    (process_ocr ⟨true, "big.png", 52428801, ["eng"], 3, 3, true,
        "20250101_120000", .ok (), .ok ⟨[90], "a"⟩,
        .error "not a pdf"⟩).2.created = [] :=
  (C8_oversized_rejected _).1 (by decide)

theorem item_none (languages : List String) (psm oem : Int) (ts : String)
    (f : BatchFile) (h : f.filename = "") :
    process_batch_item languages psm oem ts f = none := by
  simp [process_batch_item, h]

theorem item_unsupported (languages : List String) (psm oem : Int)
    (ts : String) (f : BatchFile) (h1 : f.filename ≠ "")
    (h2 : file_ext f.filename ∉ supported_formats) :
    process_batch_item languages psm oem ts f
      = some (.failure f.filename
          ("Unsupported format: " ++ file_ext f.filename), ⟨[], []⟩) := by
  simp [process_batch_item, h1, h2]

theorem item_ok_entry (languages : List String) (psm oem : Int) (ts : String)
    (f : BatchFile) (h1 : f.filename ≠ "")
    (h2 : file_ext f.filename ∈ supported_formats) (h3 : itemOk f) :
    ∃ e t, process_batch_item languages psm oem ts f = some (e, t) ∧
      e.hasError = false ∧ e.fname = f.filename := by
  obtain ⟨hsave, hroute⟩ := h3
  cases hs : f.save with
  | error err => rw [hs] at hsave; simp [exceptOk] at hsave
  | ok u =>
    by_cases hpdf : file_ext f.filename = ".pdf"
    · rw [if_pos hpdf] at hroute
      cases hc : f.convert with
      | error err => rw [hc] at hroute; simp [exceptOk] at hroute
      | ok pages =>
        refine ⟨BatchEntry.pdf f.filename (extract_text_from_pdf
            (temp_dir ++ "/batch_" ++ ts ++ "_" ++ f.filename)
            languages psm oem (.ok pages)).1,
          ⟨(temp_dir ++ "/batch_" ++ ts ++ "_" ++ f.filename) ::
              (extract_text_from_pdf (temp_dir ++ "/batch_" ++ ts ++ "_" ++
                f.filename) languages psm oem (.ok pages)).2.created,
            (extract_text_from_pdf (temp_dir ++ "/batch_" ++ ts ++ "_" ++
              f.filename) languages psm oem (.ok pages)).2.deleted ++
              [temp_dir ++ "/batch_" ++ ts ++ "_" ++ f.filename]⟩,
          ?_, rfl, rfl⟩
        simp [process_batch_item, h1, h2, hs, hpdf, hc]
        all_goals decide
    · rw [if_neg hpdf] at hroute
      cases he : f.engine with
      | error err => rw [he] at hroute; simp [exceptOk] at hroute
      | ok data =>
        refine ⟨BatchEntry.image f.filename (extract_text_from_image
            (temp_dir ++ "/batch_" ++ ts ++ "_" ++ f.filename)
            languages psm oem true f.pre (.ok data)).1,
          ⟨(temp_dir ++ "/batch_" ++ ts ++ "_" ++ f.filename) ::
              (extract_text_from_image (temp_dir ++ "/batch_" ++ ts ++ "_" ++
                f.filename) languages psm oem true f.pre (.ok data)).2.created,
            (extract_text_from_image (temp_dir ++ "/batch_" ++ ts ++ "_" ++
              f.filename) languages psm oem true f.pre (.ok data)).2.deleted ++
              [temp_dir ++ "/batch_" ++ ts ++ "_" ++ f.filename]⟩,
          ?_, rfl, rfl⟩
        simp [process_batch_item, h1, h2, hs, hpdf, he]

/-- C3 counterexample: a batch of one item with an empty filename (so
K = 1, M = 1, and the "rest" — none — all succeed); the loop skips it with
`continue`, so `failed_files` is 0, not M. -/
theorem C3_counterexample :
    (process_batch_ocr ["eng"] 3 3 "20250101_120000"
        [⟨"", .ok (), .ok (), .ok ⟨[90], "a"⟩, .error "x"⟩]).1.failed_files
      = 0 ∧
    List.countP isMalformed
      [(⟨"", .ok (), .ok (), .ok ⟨[90], "a"⟩, .error "x"⟩ : BatchFile)]
      = 1 := by
  constructor <;> decide

/-- C4 counterexample: the same empty-filename item is omitted from the
batch result list entirely rather than recorded as an error entry. -/
theorem C4_counterexample :
    (process_batch_ocr ["eng"] 3 3 "20250101_120000"
        [⟨"", .ok (), .ok (), .ok ⟨[90], "a"⟩, .error "x"⟩]).1.batch_results
      = [] := by
  decide

theorem countP_not_eq {α : Type} (l : List α) (p : α → Bool) :
    l.countP (fun a => !(p a)) = l.length - l.countP p := by
  induction l with
  | nil => simp
  | cons a as ih =>
    have hle := List.countP_le_length (p := p) (l := as)
    by_cases h : p a = true
    · simp [List.countP_cons, h, ih]
      try omega
    · simp [List.countP_cons, h, ih]
      try omega

theorem countP_malformed_split (files : List BatchFile) :
    files.countP isMalformed
      = files.countP isSkipped + files.countP isUnsupported := by
  induction files with
  | nil => simp
  | cons f fs ih =>
    by_cases h : f.filename = ""
    · simp [List.countP_cons, isMalformed, isSkipped, isUnsupported, h, ih]
      omega
    · by_cases hc : file_ext f.filename ∈ supported_formats
      · simp [List.countP_cons, isMalformed, isSkipped, isUnsupported, h, hc,
          ih]
      · simp [List.countP_cons, isMalformed, isSkipped, isUnsupported, h, hc,
          ih]
        try omega

theorem batch_core (languages : List String) (psm oem : Int) (ts : String) :
    ∀ files : List BatchFile,
      (∀ f ∈ files, f.filename ≠ "" →
        file_ext f.filename ∈ supported_formats → itemOk f) →
      ((((files.filterMap (process_batch_item languages psm oem ts)).map
          Prod.fst).filter (fun r => r.hasError)).length
        = files.countP isUnsupported ∧
      ((((files.filterMap (process_batch_item languages psm oem ts)).map
          Prod.fst).filter (fun r => !r.hasError)).length
        = files.countP (fun f => !(isMalformed f))) ∧
      ((files.filterMap (process_batch_item languages psm oem ts)).map
          Prod.fst).map BatchEntry.fname
        = (files.filter (fun f => f.filename != "")).map
            BatchFile.filename) := by
  intro files
  induction files with
  | nil => intro hok; simp
  | cons f fs ih =>
    intro hok
    obtain ⟨ih1, ih2, ih3⟩ :=
      ih (fun g hg => hok g (List.mem_cons_of_mem f hg))
    by_cases h1 : f.filename = ""
    · rw [List.filterMap_cons_none (item_none languages psm oem ts f h1)]
      have hS : isUnsupported f = false := by simp [isUnsupported, h1]
      have hM : isMalformed f = true := by simp [isMalformed, h1]
      refine ⟨?_, ?_, ?_⟩
      · rw [ih1]
        simp [List.countP_cons, hS]
      · rw [ih2]
        simp [List.countP_cons, hM]
      · rw [ih3]
        have hfn : (f.filename != "") = false := by simp [h1]
        simp [List.filter_cons, hfn]
    · by_cases h2 : file_ext f.filename ∈ supported_formats
      · obtain ⟨e, t, hitem, hErr, hFn⟩ := item_ok_entry languages psm oem ts
          f h1 h2 (hok f (List.mem_cons_self f fs) h1 h2)
        rw [List.filterMap_cons_some hitem]
        have hU : isUnsupported f = false := by
          simp [isUnsupported, h1, h2]
        have hM : isMalformed f = false := by
          simp [isMalformed, h1, h2]
        refine ⟨?_, ?_, ?_⟩
        · simp [List.filter_cons, hErr, List.countP_cons, hU, ih1]
        · simp [List.filter_cons, hErr, List.countP_cons, hM, ih2]
        · have hfn : (f.filename != "") = true := by simp [h1]
          simp [List.filter_cons, hfn, hFn, ih3]
      · rw [List.filterMap_cons_some
          (item_unsupported languages psm oem ts f h1 h2)]
        have hU : isUnsupported f = true := by
          simp [isUnsupported, h1, h2]
        have hM : isMalformed f = true := by
          simp [isMalformed, h1, h2]
        have hhe : (BatchEntry.failure f.filename
            ("Unsupported format: " ++ file_ext f.filename)).hasError
            = true := rfl
        have hfe : (BatchEntry.failure f.filename
            ("Unsupported format: " ++ file_ext f.filename)).fname
            = f.filename := rfl
        refine ⟨?_, ?_, ?_⟩
        · simp [List.filter_cons, hhe, List.countP_cons, hU, ih1]
        · simp [List.filter_cons, hhe, List.countP_cons, hM, ih2]
        · have hfn : (f.filename != "") = true := by simp [h1]
          simp [List.filter_cons, hfn, hfe, ih3]

/-- C3 (amended): in a batch of K items of which M are malformed (empty
filename) or of unsupported format and the rest succeed, the empty-filename
items are skipped outright (the loop `continue`s without recording them),
so `failed_files` equals only the number of unsupported-format items with a
non-empty filename (M minus the number of empty-filename items);
`processed_files` still equals K − M; and the result entries are the
non-skipped items' outcomes in submission order. -/
theorem C3_amended_batch_counts (languages : List String) (psm oem : Int)
    (ts : String) (files : List BatchFile)
    (hok : ∀ f ∈ files, f.filename ≠ "" →
      file_ext f.filename ∈ supported_formats → itemOk f) :
    (process_batch_ocr languages psm oem ts files).1.failed_files
      = files.countP isUnsupported ∧
    (process_batch_ocr languages psm oem ts files).1.processed_files
      = files.length - files.countP isMalformed ∧
    files.countP isMalformed
      = files.countP isSkipped + files.countP isUnsupported ∧
    (process_batch_ocr languages psm oem ts files).1.batch_results.map
        BatchEntry.fname
      = (files.filter (fun f => f.filename != "")).map
          BatchFile.filename := by
  obtain ⟨h1, h2, h3⟩ := batch_core languages psm oem ts files hok
  refine ⟨h1, ?_, countP_malformed_split files, h3⟩
  show (((files.filterMap (process_batch_item languages psm oem ts)).map
      Prod.fst).filter (fun r => !r.hasError)).length = _
  rw [h2, countP_not_eq]

/-- C3 witness: a batch of three items — a good PNG, an unsupported `.txt`,
and an empty filename — reports 1 failed, 1 processed, and lists the two
non-skipped filenames in order. -/
theorem C3_witness :
    (process_batch_ocr ["eng"] 3 3 "20250101_120000"
        [⟨"scan.png", .ok (), .ok (), .ok ⟨[88], "hi"⟩, .error "na"⟩,
         ⟨"notes.txt", .ok (), .ok (), .ok ⟨[70], "x"⟩, .error "na"⟩,
         ⟨"", .ok (), .ok (), .ok ⟨[60], "y"⟩, .error "na"⟩]).1.failed_files
      = List.countP isUnsupported
          [(⟨"scan.png", .ok (), .ok (), .ok ⟨[88], "hi"⟩,
              .error "na"⟩ : BatchFile),
           ⟨"notes.txt", .ok (), .ok (), .ok ⟨[70], "x"⟩, .error "na"⟩,
           ⟨"", .ok (), .ok (), .ok ⟨[60], "y"⟩, .error "na"⟩] ∧
    (process_batch_ocr ["eng"] 3 3 "20250101_120000"
        [⟨"scan.png", .ok (), .ok (), .ok ⟨[88], "hi"⟩, .error "na"⟩,
         ⟨"notes.txt", .ok (), .ok (), .ok ⟨[70], "x"⟩, .error "na"⟩,
         ⟨"", .ok (), .ok (), .ok ⟨[60], "y"⟩,
           .error "na"⟩]).1.processed_files
      = 3 - List.countP isMalformed
          [(⟨"scan.png", .ok (), .ok (), .ok ⟨[88], "hi"⟩,
              .error "na"⟩ : BatchFile),
           ⟨"notes.txt", .ok (), .ok (), .ok ⟨[70], "x"⟩, .error "na"⟩,
           ⟨"", .ok (), .ok (), .ok ⟨[60], "y"⟩, .error "na"⟩] := by
  have h := C3_amended_batch_counts ["eng"] 3 3 "20250101_120000"
    [⟨"scan.png", .ok (), .ok (), .ok ⟨[88], "hi"⟩, .error "na"⟩,
     ⟨"notes.txt", .ok (), .ok (), .ok ⟨[70], "x"⟩, .error "na"⟩,
     ⟨"", .ok (), .ok (), .ok ⟨[60], "y"⟩, .error "na"⟩]
    (by decide)
  exact ⟨h.1, h.2.1⟩

/-- C4 (amended): a batch item with a non-empty filename and an unsupported
extension is recorded as an error entry at its position in the result list,
without invoking extraction or creating any temp resource for it; an item
with an empty filename, however, is skipped outright and omitted from the
result list (also without consuming any resources). -/
theorem C4_amended_unsupported_recorded (languages : List String)
    (psm oem : Int) (ts : String) (fsA fsB : List BatchFile)
    (f : BatchFile) :
    (f.filename = "" →
      (process_batch_ocr languages psm oem ts
          (fsA ++ f :: fsB)).1.batch_results
        = (process_batch_ocr languages psm oem ts
          (fsA ++ fsB)).1.batch_results ∧
      (process_batch_ocr languages psm oem ts (fsA ++ f :: fsB)).2
        = (process_batch_ocr languages psm oem ts (fsA ++ fsB)).2) ∧
    (f.filename ≠ "" → file_ext f.filename ∉ supported_formats →
      (process_batch_ocr languages psm oem ts
          (fsA ++ f :: fsB)).1.batch_results
        = (process_batch_ocr languages psm oem ts fsA).1.batch_results
          ++ BatchEntry.failure f.filename
              ("Unsupported format: " ++ file_ext f.filename)
            :: (process_batch_ocr languages psm oem ts
              fsB).1.batch_results ∧
      (process_batch_ocr languages psm oem ts (fsA ++ f :: fsB)).2
        = (process_batch_ocr languages psm oem ts (fsA ++ fsB)).2) := by
  constructor
  · intro h1
    have hfm : (fsA ++ f :: fsB).filterMap
        (process_batch_item languages psm oem ts)
        = (fsA ++ fsB).filterMap
          (process_batch_item languages psm oem ts) := by
      rw [List.filterMap_append, List.filterMap_append,
        List.filterMap_cons_none (item_none languages psm oem ts f h1)]
    constructor
    · simp only [process_batch_ocr]
      rw [hfm]
    · simp only [process_batch_ocr]
      rw [hfm]
  · intro h1 h2
    have hfm : (fsA ++ f :: fsB).filterMap
        (process_batch_item languages psm oem ts)
        = fsA.filterMap (process_batch_item languages psm oem ts)
          ++ (BatchEntry.failure f.filename
              ("Unsupported format: " ++ file_ext f.filename),
            (⟨[], []⟩ : FileTrace))
            :: fsB.filterMap (process_batch_item languages psm oem ts) := by
      rw [List.filterMap_append,
        List.filterMap_cons_some
          (item_unsupported languages psm oem ts f h1 h2)]
    constructor
    · simp only [process_batch_ocr]
      rw [hfm]
      simp
    · simp only [process_batch_ocr]
      rw [hfm, List.filterMap_append]
      simp [List.foldr_append]

/-- C4 witness: a single-item batch with an unsupported `.txt` filename
yields exactly one unsupported-format error entry and touches no temp
files. -/
theorem C4_witness :
    (process_batch_ocr ["eng"] 3 3 "20250101_120000"
        [⟨"doc.txt", .ok (), .ok (), .ok ⟨[70], "x"⟩,
          .error "na"⟩]).1.batch_results
      = (process_batch_ocr ["eng"] 3 3 "20250101_120000"
          ([] : List BatchFile)).1.batch_results
        ++ BatchEntry.failure "doc.txt"
            ("Unsupported format: " ++ file_ext "doc.txt")
          :: (process_batch_ocr ["eng"] 3 3 "20250101_120000"
            ([] : List BatchFile)).1.batch_results ∧
    (process_batch_ocr ["eng"] 3 3 "20250101_120000"
        [⟨"doc.txt", .ok (), .ok (), .ok ⟨[70], "x"⟩, .error "na"⟩]).2
      = (process_batch_ocr ["eng"] 3 3 "20250101_120000"
          ([] : List BatchFile)).2 := by
  have h := (C4_amended_unsupported_recorded ["eng"] 3 3 "20250101_120000"
    [] [] ⟨"doc.txt", .ok (), .ok (), .ok ⟨[70], "x"⟩, .error "na"⟩).2
    (by decide) (by decide)
  exact h
